import Mathlib

/-!
# Verification of the asset-discovery simulator core

Shallow embedding of the simulator core of `asset-discovery-simulator`
(`src/simulate/{asset_simulator,utils,types}.rs` and
`src/simulate/checkers/{traits,erc20}.rs`), together with theorems about
the claims of its specification.

The EVM execution engine (Foundry's `Executor`), ABI coding (`alloy`) and
the forked backend are external collaborators of the repository; they are
modelled at their interface boundary: the engine as an abstract record of
state-passing operations, ABI payloads as an inductive of decode shapes.
-/

namespace AssetSim

/-! ## Machine integers and addresses

`U256` is modelled as `Nat` carrying values below `2^256`; `+=` on the
Rust side wraps modulo `2^256`, `saturating_sub` is `Nat` subtraction. -/

abbrev Address := Nat
abbrev U256 := Nat

def u256Limit : Nat := 2 ^ 256

/-- `U256::MAX` -/
def u256Max : U256 := u256Limit - 1

/-- Wrapping 256-bit addition (`+=` on `U256`). -/
def u256add (a b : U256) : U256 := (a + b) % u256Limit

/-- `U256::saturating_sub`: on `Nat` this is plain truncated subtraction. -/
def u256satSub (a b : U256) : U256 := a - b

/-! ## Call payloads

ABI encoding/decoding is external (`alloy_sol_types`); a payload is
modelled by its decode result: a `transfer(to, amount)` shape, a
`transferFrom(from, to, amount)` shape, a `balanceOf(account)` shape, or
any other byte string (`other i` — distinct `i` stand for distinct byte
strings, e.g. `approve` calldata). Equality of `CallData` models
byte-equality of the underlying payloads. -/

inductive CallData where
  | transfer (toAddr : Address) (amount : U256)
  | transferFromShape (fromAddr toAddr : Address) (amount : U256)
  | balanceOf (account : Address)
  | other (i : Nat)
deriving DecidableEq, Repr

/-- `forge::traces::CallKind` (the selector only distinguishes
`DelegateCall` from everything else). -/
inductive CallKind where
  | call
  | staticCall
  | delegateCall
  | callCode
  | create
deriving DecidableEq, Repr

/-- One interpreter step of a trace (`CallTraceStep`): the selector and
`AssetContext` only use the opcode name and the stack. -/
structure TraceStep where
  op : String
  stack : Option (List U256)
deriving DecidableEq, Repr

/-- `forge::traces::CallTrace`. Besides the fields the simulator core
reads (`kind`, `caller`, `address`, `data`, `steps`), the field `rest`
abstracts every remaining field of the Rust struct (depth, value, output,
gas, status, …) so that equality of this structure models the derived
structural equality `==` on `CallTrace`. -/
structure CallTrace where
  kind : CallKind
  caller : Address
  address : Address
  data : CallData
  steps : List TraceStep
  rest : Nat
deriving DecidableEq, Repr

/-! ## Trace selector (`src/simulate/utils.rs`) -/

/-- `find_last_non_proxy_call`: walk the node list from the end and return
the first node that is not a "pure proxy" delegate call. Faithful to the
source: the index used for the predecessor lookup is recovered with
`trace_list.iter().position(|t| t == *trace)`, i.e. the position of the
*first structurally equal* trace, not of the node currently visited. -/
def find_last_non_proxy_call (traceList : List CallTrace) : Option CallTrace :=
  traceList.reverse.find? (fun trace =>
    if trace.kind != CallKind.delegateCall then
      true
    else
      let traceIdx := traceList.findIdx (fun t => t == trace)
      if traceIdx == 0 then
        true
      else
        trace.data != (traceList.getD (traceIdx - 1) trace).data)

/-- Trace selector as the specification words it (spec §4.1): walk
last-executed first; skip a node only when it is a delegate call whose
payload is byte-identical to that of the node **one position earlier in
execution order**; the chronologically first node is always accepted. -/
def selectRevSpec : List CallTrace → Option CallTrace
  | [] => none
  | [t] => some t
  | t :: prev :: rest =>
    if t.kind == CallKind.delegateCall && t.data == prev.data then
      selectRevSpec (prev :: rest)
    else
      some t

/-- Spec-side trace selector, applied to the execution-ordered node list. -/
def selectTraceSpec (traceList : List CallTrace) : Option CallTrace :=
  selectRevSpec traceList.reverse

/-! ## Asset data model (`src/simulate/types.rs`) -/

/-- `AssetType` classification tag. -/
inductive AssetType where
  | native
  | erc20
  | erc721
  | erc1155
deriving DecidableEq, Repr

/-- `AssetSpec`. The `ERC1155` variant's `HashMap<U256, U256>` is modelled
as its list of entries in the map's (arbitrary) internal iteration order;
a well-formed map has `Nodup` keys. -/
inductive AssetSpec where
  | native (amount : U256)
  | erc20 (token : Address) (amount : U256)
  | erc721 (token : Address) (tokenIds : List U256)
  | erc1155 (token : Address) (tokenAmounts : List (U256 × U256))
deriving DecidableEq, Repr

/-- Lookup in the entry list of a modelled `HashMap` (`HashMap::get`). -/
def hmGet (entries : List (U256 × U256)) (k : U256) : Option U256 :=
  (entries.find? (fun p => p.1 == k)).map Prod.snd

/-- `HashMap` equality as Rust implements it: same length, and every
entry of the left map is present in the right one. -/
def hmBeq (m1 m2 : List (U256 × U256)) : Bool :=
  m1.length == m2.length && m1.all (fun p => hmGet m2 p.1 == some p.2)

/-- `AssetSpec`'s derived `PartialEq`: structural on all variants, with
the `ERC1155` map compared by `HashMap` (order-independent) equality. -/
def specBeq : AssetSpec → AssetSpec → Bool
  | .native a, .native b => a == b
  | .erc20 t1 a1, .erc20 t2 a2 => t1 == t2 && a1 == a2
  | .erc721 t1 ids1, .erc721 t2 ids2 => t1 == t2 && ids1 == ids2
  | .erc1155 t1 m1, .erc1155 t2 m2 => t1 == t2 && hmBeq m1 m2
  | _, _ => false

/-- `MissingAssetInfo`. -/
structure MissingAssetInfo where
  account : Address
  required : AssetSpec
  current_balance : U256
  missing_amount : U256
deriving DecidableEq, Repr

/-- `PotentialMissingAsset` (`src/simulate/checkers/traits.rs`). -/
structure PotentialMissingAsset where
  asset_type : AssetType
  token_address : Address
  account : Address
  required_amount : U256
deriving DecidableEq, Repr

/-- `AssetContext`. -/
structure AssetContext where
  potential_asset : PotentialMissingAsset
  trace : CallTrace
  storage_accesses : List U256
deriving Repr

/-- `AssetContext::extract_storage_accesses`: the slots on top of the
stack at every `SLOAD` step of the trace. -/
def extract_storage_accesses (trace : CallTrace) : List U256 :=
  trace.steps.foldl
    (fun acc step =>
      if step.op == "SLOAD" then
        match step.stack with
        | some stack =>
          match stack.getLast? with
          | some slot => acc ++ [slot]
          | none => acc
        | none => acc
      else acc)
    []

/-- `AssetContext::from_trace`. -/
def AssetContext.from_trace (pa : PotentialMissingAsset) (trace : CallTrace) :
    AssetContext :=
  { potential_asset := pa, trace := trace,
    storage_accesses := extract_storage_accesses trace }

/-! ## Aggregation (`AssetSimulator::aggregate_missing_assets`)

The Rust code folds the recorded list into a
`HashMap<(Address, AssetSpec), MissingAssetInfo>` keyed by
`(a.account, a.required.clone())` — the key includes the full `AssetSpec`,
amount included.  The map is modelled as an association list whose key
comparison is the Rust `==` (`keyBeq`); `HashMap` requires `Hash`
consistent with `Eq`, which the manual `Hash` instance provides (claim on
the hash model below).  `into_values()` yields the values in an
unspecified order; the model keeps first-insertion order, and all claims
about the output are order-insensitive. -/

/-- Equality of aggregation keys `(Address, AssetSpec)` (tuple `Eq`). -/
def keyBeq (k1 k2 : Address × AssetSpec) : Bool :=
  k1.1 == k2.1 && specBeq k1.2 k2.2

/-- The `and_modify` closure: accumulate `missing_amount`, and for an
existing `ERC20` spec also accumulate the embedded `amount` field. -/
def aggModify (existing a : MissingAssetInfo) : MissingAssetInfo :=
  let ex := { existing with
    missing_amount := u256add existing.missing_amount a.missing_amount }
  match ex.required, a.required with
  | AssetSpec.erc20 t amt, AssetSpec.erc20 _ addAmt =>
    { ex with required := AssetSpec.erc20 t (u256add amt addAmt) }
  | _, _ => ex

/-- `map.entry(key).and_modify(…).or_insert(a)` on the association-list
model of the `HashMap`. -/
def aggInsert (m : List ((Address × AssetSpec) × MissingAssetInfo))
    (a : MissingAssetInfo) :
    List ((Address × AssetSpec) × MissingAssetInfo) :=
  match m with
  | [] => [((a.account, a.required), a)]
  | (k, v) :: rest =>
    if keyBeq k (a.account, a.required) then
      (k, aggModify v a) :: rest
    else
      (k, v) :: aggInsert rest a

/-- `AssetSimulator::aggregate_missing_assets`. -/
def aggregate_missing_assets (assets : List MissingAssetInfo) :
    List MissingAssetInfo :=
  ((assets.foldl aggInsert []).map Prod.snd)

/-! ## Engine interface (spec §6, `forge::executors::Executor`)

The engine is external; it is modelled as a record of explicit
state-passing operations over an abstract state `σ`.  Rust's `&mut
Executor` methods returning `Result` are modelled as returning
`Except Err _ × σ`: the executor survives (and may have been mutated)
even when the operation errors.  The decoded output of a read-only call
(`out` + `abi_decode_returns(..).ok()`) is abstracted as `Option U256`. -/

abbrev Err := String

/-- Result of `Executor::transact_raw` (`RawCallResult`): the only fields
the orchestrator reads are `exit_reason.is_revert()` and `traces` (the
arena's node list in execution order). -/
structure TxResult where
  isRevert : Bool
  traces : Option (List CallTrace)

structure Engine (σ : Type) where
  transactRaw : Address → Address → CallData → U256 → σ → Except Err TxResult × σ
  callRaw : Address → Address → CallData → U256 → σ → Except Err (Option U256) × σ
  insertAccountStorage : Address → U256 → U256 → σ → Except Err Unit × σ

/-- `Call` (`src/simulate/types.rs`). -/
structure Call where
  fromAddr : Address
  toAddr : Address
  value : U256
  data : CallData

/-! ## ERC20 checker (`src/simulate/checkers/erc20.rs`) -/

/-- `transferCall::try_decode`. -/
def tryDecodeTransfer : CallData → Option (Address × U256)
  | CallData.transfer toAddr amount => some (toAddr, amount)
  | _ => none

/-- `transferFromCall::try_decode`. -/
def tryDecodeTransferFrom : CallData → Option (Address × Address × U256)
  | CallData.transferFromShape fromAddr toAddr amount =>
    some (fromAddr, toAddr, amount)
  | _ => none

/-- `ERC20Checker::identify_asset`: try the registered transfer shapes in
order (`transfer` first, then `transferFrom`); `transfer` debits the
node's caller, `transferFrom` debits the explicit `from` argument. -/
def erc20IdentifyAsset (trace : CallTrace) : Option PotentialMissingAsset :=
  match tryDecodeTransfer trace.data with
  | some (_toAddr, amount) =>
    some { asset_type := AssetType.erc20, token_address := trace.address,
           account := trace.caller, required_amount := amount }
  | none =>
    match tryDecodeTransferFrom trace.data with
    | some (fromAddr, _toAddr, amount) =>
      some { asset_type := AssetType.erc20, token_address := trace.address,
             account := fromAddr, required_amount := amount }
    | none => none

/-- `ERC20Checker::check_balance`: read-only `balanceOf` query from the
zero address; undecodable or absent output defaults to zero; the missing
amount is the saturating difference. -/
def erc20CheckBalance {σ : Type} (E : Engine σ) (asset : PotentialMissingAsset)
    (s : σ) : Except Err MissingAssetInfo × σ :=
  match E.callRaw 0 asset.token_address (CallData.balanceOf asset.account) 0 s with
  | (Except.error e, s') => (Except.error e, s')
  | (Except.ok out, s') =>
    let current_balance := out.getD 0
    let missing_amount := u256satSub asset.required_amount current_balance
    (Except.ok
      { account := asset.account,
        required := AssetSpec.erc20 asset.token_address asset.required_amount,
        current_balance := current_balance,
        missing_amount := missing_amount }, s')

/-- The sentinel written by `deal`: `U256::MAX >> 1`. -/
def largeBalance : U256 := u256Max >>> 1

/-- `&mut` loop body of `deal`: `insert_account_storage` on every recorded
slot, propagating the first engine error. -/
def patchSlots {σ : Type} (E : Engine σ) (token : Address) :
    List U256 → σ → Except Err Unit × σ
  | [], s => (Except.ok (), s)
  | slot :: rest, s =>
    match E.insertAccountStorage token slot largeBalance s with
    | (Except.error e, s') => (Except.error e, s')
    | (Except.ok _, s') => patchSlots E token rest s'

/-- `ERC20Checker::deal`: refuse non-ERC20 specs; error when the context
recorded no storage accesses; otherwise overwrite every recorded slot of
the token contract with the sentinel, then do a best-effort verification
`balanceOf` read-back whose outcome (ok or error) is only logged. -/
def erc20Deal {σ : Type} (E : Engine σ) (recipient : Address)
    (asset_spec : AssetSpec) (s : σ) (context : AssetContext) :
    Except Err Unit × σ :=
  match asset_spec with
  | AssetSpec.erc20 token _amount =>
    if context.storage_accesses.isEmpty then
      (Except.error "No storage accesses found in trace - cannot determine balance slot", s)
    else
      match patchSlots E token context.storage_accesses s with
      | (Except.error e, s') => (Except.error e, s')
      | (Except.ok _, s') =>
        let s'' := (E.callRaw recipient token (CallData.balanceOf recipient) 0 s').2
        (Except.ok (), s'')
  | _ => (Except.error "ERC20Checker can only deal ERC20 assets", s)

/-! ## Checker capability (`src/simulate/checkers/traits.rs`) -/

/-- `AssetChecker` trait object, closed over the engine it talks to. -/
structure AssetChecker (σ : Type) where
  identify_asset : CallTrace → Option PotentialMissingAsset
  check_balance : PotentialMissingAsset → σ → Except Err MissingAssetInfo × σ
  deal : Address → AssetSpec → σ → AssetContext → Except Err Unit × σ
  asset_type : AssetType

/-- The `ERC20Checker` packaged as a trait object over engine `E`. -/
def erc20Checker {σ : Type} (E : Engine σ) : AssetChecker σ :=
  { identify_asset := erc20IdentifyAsset,
    check_balance := erc20CheckBalance E,
    deal := erc20Deal E,
    asset_type := AssetType.erc20 }

/-! ## Orchestrator (`AssetSimulator::check_transaction_with_options`) -/

/-- Inner `for checker in &self.checkers` loop of one iteration: returns
the updated recorded list and the `found_any_missing` flag, or the first
`deal` error (which `?`-propagates).  A `check_balance` error is logged
and treated as "this checker found nothing this round". -/
def processCheckers {σ : Type} :
    List (AssetChecker σ) → CallTrace → Bool → σ →
    List MissingAssetInfo → Bool →
    Except Err (List MissingAssetInfo × Bool) × σ
  | [], _trace, _autoFix, s, acc, foundAny => (Except.ok (acc, foundAny), s)
  | c :: rest, trace, autoFix, s, acc, foundAny =>
    match c.identify_asset trace with
    | none => processCheckers rest trace autoFix s acc foundAny
    | some potentialAsset =>
      match c.check_balance potentialAsset s with
      | (Except.error _e, s') =>
        -- error!(…): logged, the run continues
        processCheckers rest trace autoFix s' acc foundAny
      | (Except.ok missing, s') =>
        if missing.missing_amount > 0 then
          let acc' := acc ++ [missing]
          if autoFix then
            let ctx := AssetContext.from_trace potentialAsset trace
            match c.deal missing.account missing.required s' ctx with
            | (Except.error e, s'') => (Except.error e, s'')
            | (Except.ok _, s'') => processCheckers rest trace autoFix s'' acc' true
          else
            processCheckers rest trace autoFix s' acc' true
        else
          -- balance fine
          processCheckers rest trace autoFix s' acc foundAny

/-- The bounded `for _iteration in 0..max_iterations` loop, with the fuel
argument counting the iterations still allowed.  On fuel exhaustion or on
any `break` the accumulated history is aggregated exactly once; a
`transact_raw` or `deal` error `?`-propagates without aggregation. -/
def loopIter {σ : Type} (E : Engine σ) (checkers : List (AssetChecker σ))
    (call : Call) (autoFix : Bool) :
    Nat → σ → List MissingAssetInfo →
    Except Err (List MissingAssetInfo) × σ
  | 0, s, acc => (Except.ok (aggregate_missing_assets acc), s)
  | n + 1, s, acc =>
    match E.transactRaw call.fromAddr call.toAddr call.data call.value s with
    | (Except.error e, s') => (Except.error e, s')
    | (Except.ok result, s') =>
      if !result.isRevert then
        -- transaction succeeded → done
        (Except.ok (aggregate_missing_assets acc), s')
      else
        let step :=
          match result.traces with
          | none => (Except.ok (acc, false), s')
          | some traces =>
            match find_last_non_proxy_call traces with
            | none => (Except.ok (acc, false), s')
            | some trace => processCheckers checkers trace autoFix s' acc false
        match step with
        | (Except.error e, s'') => (Except.error e, s'')
        | (Except.ok (acc', foundAny), s'') =>
          if autoFix && foundAny then
            loopIter E checkers call autoFix n s'' acc'
          else
            (Except.ok (aggregate_missing_assets acc'), s'')

/-- `AssetSimulator::check_transaction_with_options`. -/
def check_transaction_with_options {σ : Type} (E : Engine σ)
    (checkers : List (AssetChecker σ)) (call : Call) (autoFix : Bool)
    (maxIterations : Nat) (s : σ) :
    Except Err (List MissingAssetInfo) × σ :=
  loopIter E checkers call autoFix maxIterations s []

/-- `AssetSimulator::check_transaction` (defaults: auto-fix on, ten
iterations). -/
def check_transaction {σ : Type} (E : Engine σ)
    (checkers : List (AssetChecker σ)) (call : Call) (s : σ) :
    Except Err (List MissingAssetInfo) × σ :=
  check_transaction_with_options E checkers call true 10 s

/-! ## Engine instrumentation and reference engines

`countEngine` pairs an engine's state with a counter incremented on every
`transact_raw` invocation; `liftChecker` runs a checker on the paired
state without touching the counter (checkers never call `transact_raw`).
`storeEngine` is a reference model of the backend's storage map, used to
observe the writes performed by `deal`.  `witEngine` returns fixed
answers; it instantiates theorems at concrete inputs. -/

def countEngine {σ : Type} (E : Engine σ) : Engine (σ × Nat) where
  transactRaw f t d v := fun sc =>
    let r := E.transactRaw f t d v sc.1
    (r.1, (r.2, sc.2 + 1))
  callRaw f t d v := fun sc =>
    let r := E.callRaw f t d v sc.1
    (r.1, (r.2, sc.2))
  insertAccountStorage a sl val := fun sc =>
    let r := E.insertAccountStorage a sl val sc.1
    (r.1, (r.2, sc.2))

def liftChecker {σ : Type} (c : AssetChecker σ) : AssetChecker (σ × Nat) where
  identify_asset := c.identify_asset
  check_balance pa := fun sc =>
    let r := c.check_balance pa sc.1
    (r.1, (r.2, sc.2))
  deal addr spec := fun sc ctx =>
    let r := c.deal addr spec sc.1 ctx
    (r.1, (r.2, sc.2))
  asset_type := c.asset_type

/-- Reference model of the backend storage (`force_set_storage` target). -/
structure Store where
  storage : Address → U256 → U256

def storeEngine : Engine Store where
  transactRaw _ _ _ _ s := (Except.ok { isRevert := false, traces := none }, s)
  callRaw _ _ _ _ s := (Except.ok none, s)
  insertAccountStorage addr slot v s :=
    (Except.ok (),
      { storage := fun a sl => if a = addr ∧ sl = slot then v else s.storage a sl })

/-- Fixed-answer engine over the unit state. -/
def witEngine (tx : Except Err TxResult) (bal : Except Err (Option U256)) :
    Engine Unit where
  transactRaw _ _ _ _ s := (tx, s)
  callRaw _ _ _ _ s := (bal, s)
  insertAccountStorage _ _ _ s := (Except.ok (), s)

/-! ## Hash model (`impl Hash for AssetSpec`, `src/simulate/types.rs`)

A Rust `Hasher` is a fold over the stream of written words; two values
hash identically for every hasher iff they feed it the same stream.  The
stream is modelled as the list of written words: the variant discriminant
(`write_u8`) followed by the hashes of the fields, the `ERC1155` map's
entries being visited in sorted key order. -/

def hashU256 (n : U256) : List Nat := [n]

def hashAddress (a : Address) : List Nat := [a]

/-- `entries.sort_by(|a, b| a.0.cmp(b.0))`. -/
def sortEntries (m : List (U256 × U256)) : List (U256 × U256) :=
  m.mergeSort (fun a b => decide (a.1 ≤ b.1))

/-- The stream of words the manual `Hash` implementation writes. -/
def hashStream : AssetSpec → List Nat
  | AssetSpec.native amount => 0 :: hashU256 amount
  | AssetSpec.erc20 token amount => 1 :: (hashAddress token ++ hashU256 amount)
  | AssetSpec.erc721 token tokenIds =>
    2 :: (hashAddress token ++ tokenIds.flatMap hashU256)
  | AssetSpec.erc1155 token tokenAmounts =>
    3 :: (hashAddress token ++
      (sortEntries tokenAmounts).flatMap (fun p => hashU256 p.1 ++ hashU256 p.2))

/-- Well-formedness of the `HashMap` entry lists inside an `AssetSpec`:
a real `HashMap` never holds two entries with the same key. -/
def wfSpec : AssetSpec → Prop
  | AssetSpec.erc1155 _ m => (m.map Prod.fst).Nodup
  | _ => True

/-! ## Theorems -/

theorem aggregate_missing_assets_nil : aggregate_missing_assets [] = [] := rfl

/-- The entries of a report that concern a given `(account, token)` pair,
whatever the amount recorded inside `required`. -/
def erc20EntriesFor (acct tok : Address) (l : List MissingAssetInfo) :
    List MissingAssetInfo :=
  l.filter (fun m =>
    m.account == acct &&
      match m.required with
      | AssetSpec.erc20 t _ => t == tok
      | _ => false)

/-- C1 (counterexample): two recorded entries for the same account and
token whose `required` amounts differ (5 and 7, shortfalls 5 and 7) are
*not* merged by `aggregate_missing_assets`: the output carries two
entries for that `(account, token)` pair and none of them has
`missing_amount = 5 + 7`, because the grouping key is
`(account, required.clone())` with the amount included. -/
theorem aggregate_distinct_amounts_not_merged :
    (erc20EntriesFor 1 2 (aggregate_missing_assets
        [{ account := 1, required := AssetSpec.erc20 2 5,
           current_balance := 0, missing_amount := 5 },
         { account := 1, required := AssetSpec.erc20 2 7,
           current_balance := 0, missing_amount := 7 }])).length = 2
    ∧ ∀ m ∈ aggregate_missing_assets
        [{ account := 1, required := AssetSpec.erc20 2 5,
           current_balance := 0, missing_amount := 5 },
         { account := 1, required := AssetSpec.erc20 2 7,
           current_balance := 0, missing_amount := 7 }],
        m.missing_amount ≠ 5 + 7 := by
  decide

/-- C1 (amended): aggregation groups recorded shortfalls by the pair
`(account, required)` with the full `AssetSpec` — amount included — as
the key.  Two entries sharing account, token *and* recorded required
amount `A` (shortfalls `S1`, `S2`) merge into exactly one entry whose
`missing_amount` is `S1 + S2` and whose required ERC20 amount is the sum
`A + A` of the two recorded required amounts (sums wrap modulo `2^256`);
two entries whose required amounts differ stay separate. -/
theorem aggregate_same_key_sums (acct tok A A' S1 S2 c1 c2 : Nat)
    (hne : A ≠ A') :
    aggregate_missing_assets
        [{ account := acct, required := AssetSpec.erc20 tok A,
           current_balance := c1, missing_amount := S1 },
         { account := acct, required := AssetSpec.erc20 tok A,
           current_balance := c2, missing_amount := S2 }]
      = [{ account := acct, required := AssetSpec.erc20 tok (u256add A A),
           current_balance := c1, missing_amount := u256add S1 S2 }]
    ∧ aggregate_missing_assets
        [{ account := acct, required := AssetSpec.erc20 tok A,
           current_balance := c1, missing_amount := S1 },
         { account := acct, required := AssetSpec.erc20 tok A',
           current_balance := c2, missing_amount := S2 }]
      = [{ account := acct, required := AssetSpec.erc20 tok A,
           current_balance := c1, missing_amount := S1 },
         { account := acct, required := AssetSpec.erc20 tok A',
           current_balance := c2, missing_amount := S2 }] := by
  constructor
  · simp [aggregate_missing_assets, aggInsert, keyBeq, specBeq, aggModify]
  · simp [aggregate_missing_assets, aggInsert, keyBeq, specBeq, aggModify, hne]

/-- C1 witness: the amended behaviour at concrete inputs. -/
theorem aggregate_same_key_sums_witness :
    (3 : Nat) ≠ 4
    ∧ aggregate_missing_assets
        [{ account := 1, required := AssetSpec.erc20 2 3,
           current_balance := 0, missing_amount := 3 },
         { account := 1, required := AssetSpec.erc20 2 3,
           current_balance := 9, missing_amount := 8 }]
      = [{ account := 1, required := AssetSpec.erc20 2 (u256add 3 3),
           current_balance := 0, missing_amount := u256add 3 8 }] :=
  ⟨by decide, (aggregate_same_key_sums 1 2 3 4 3 8 0 9 (by decide)).1⟩

/-- C2 (code evaluated at the failing input): in the synthetic
execution-ordered trace `[A, T, B, T]` — `A` a plain call with payload
`other 0`, `T` a delegate call with payload `other 1`, `B` a plain call
with payload `other 1`, and the two `T` nodes structurally identical —
the last node `T` is a delegate call whose payload is byte-identical to
its immediate predecessor `B`, so the spec's walk skips it and returns
`B`; the code instead recovers the node's index with
`position(|t| t == *trace)`, finds the *earlier* duplicate of `T`,
compares against `A`'s differing payload, and returns the delegate-call
node `T` itself. -/
theorem selector_duplicate_divergence :
    find_last_non_proxy_call
        [{ kind := CallKind.call, caller := 0, address := 10,
           data := CallData.other 0, steps := [], rest := 0 },
         { kind := CallKind.delegateCall, caller := 0, address := 10,
           data := CallData.other 1, steps := [], rest := 0 },
         { kind := CallKind.call, caller := 0, address := 10,
           data := CallData.other 1, steps := [], rest := 1 },
         { kind := CallKind.delegateCall, caller := 0, address := 10,
           data := CallData.other 1, steps := [], rest := 0 }]
      = some { kind := CallKind.delegateCall, caller := 0, address := 10,
               data := CallData.other 1, steps := [], rest := 0 }
    ∧ selectTraceSpec
        [{ kind := CallKind.call, caller := 0, address := 10,
           data := CallData.other 0, steps := [], rest := 0 },
         { kind := CallKind.delegateCall, caller := 0, address := 10,
           data := CallData.other 1, steps := [], rest := 0 },
         { kind := CallKind.call, caller := 0, address := 10,
           data := CallData.other 1, steps := [], rest := 1 },
         { kind := CallKind.delegateCall, caller := 0, address := 10,
           data := CallData.other 1, steps := [], rest := 0 }]
      = some { kind := CallKind.call, caller := 0, address := 10,
               data := CallData.other 1, steps := [], rest := 1 }
    ∧ ({ kind := CallKind.delegateCall, caller := 0, address := 10,
         data := CallData.other 1, steps := [], rest := 0 } : CallTrace)
      ≠ { kind := CallKind.call, caller := 0, address := 10,
          data := CallData.other 1, steps := [], rest := 1 } := by
  refine ⟨rfl, rfl, by decide⟩

/-- After `patchSlots` on the reference store, exactly the patched
`(token, slot)` cells hold the sentinel; everything else is unchanged. -/
theorem patchSlots_storeEngine (token : Address) :
    ∀ (slots : List U256) (s : Store),
      ∃ s', patchSlots storeEngine token slots s = (Except.ok (), s')
        ∧ ∀ a sl, s'.storage a sl =
            if a = token ∧ sl ∈ slots then largeBalance else s.storage a sl := by
  intro slots
  induction slots with
  | nil =>
    intro s
    exact ⟨s, rfl, by simp⟩
  | cons slot rest ih =>
    intro s
    obtain ⟨s', h1, h2⟩ := ih
      { storage := fun a sl =>
          if a = token ∧ sl = slot then largeBalance else s.storage a sl }
    refine ⟨s', h1, ?_⟩
    intro a sl
    rw [h2]
    by_cases ha : a = token
    · by_cases hr : sl ∈ rest
      · simp [ha, hr]
      · by_cases hs : sl = slot <;> simp [ha, hr, hs]
    · simp [ha]

/-- C7: `deal` on an `AssetContext` with no recorded storage accesses
fails with an error and patches nothing; on a context with recorded
accesses it succeeds and overwrites every recorded slot of the token
contract with the sentinel `U256::MAX >> 1`, which is strictly below
`U256::MAX`. -/
theorem erc20Deal_patches (recipient token amount : Nat) (ctx : AssetContext)
    (s : Store) :
    (ctx.storage_accesses = [] →
      erc20Deal storeEngine recipient (AssetSpec.erc20 token amount) s ctx
        = (Except.error
            "No storage accesses found in trace - cannot determine balance slot",
           s))
    ∧ (ctx.storage_accesses ≠ [] →
        ∃ s', erc20Deal storeEngine recipient (AssetSpec.erc20 token amount) s ctx
            = (Except.ok (), s')
          ∧ ∀ slot ∈ ctx.storage_accesses, s'.storage token slot = largeBalance)
    ∧ largeBalance < u256Max := by
  refine ⟨?_, ?_, ?_⟩
  · intro h
    simp [erc20Deal, h]
  · intro h
    obtain ⟨s', h1, h2⟩ := patchSlots_storeEngine token ctx.storage_accesses s
    refine ⟨s', ?_, ?_⟩
    · simp only [erc20Deal, List.isEmpty_eq_true]
      rw [if_neg h, h1]
      rfl
    · intro slot hslot
      rw [h2]
      simp [hslot]
  · decide

/-- C7 witness: a context recording slot 4 twice and slot 9 once. -/
theorem erc20Deal_patches_witness :
    let ctx : AssetContext :=
      { potential_asset :=
          { asset_type := AssetType.erc20, token_address := 2, account := 1,
            required_amount := 100 },
        trace :=
          { kind := CallKind.call, caller := 1, address := 2,
            data := CallData.transfer 3 100, steps := [], rest := 0 },
        storage_accesses := [4, 9, 4] }
    let s : Store := { storage := fun _ _ => 0 }
    ([4, 9, 4] ≠ ([] : List Nat))
    ∧ ∃ s', erc20Deal storeEngine 1 (AssetSpec.erc20 2 100) s ctx
          = (Except.ok (), s')
        ∧ ∀ slot ∈ [4, 9, 4], s'.storage 2 slot = largeBalance :=
  ⟨by decide, ((erc20Deal_patches 1 2 100 _ _).2.1 (by decide))⟩

/-- C8: whenever `check_balance` succeeds, the reported shortfall is the
saturating difference `max(0, required_amount − current_balance)` of the
required amount and the balance the read-only query reported — in
particular it is never negative. -/
theorem check_balance_saturating {σ : Type} (E : Engine σ)
    (asset : PotentialMissingAsset) (s s' : σ) (mi : MissingAssetInfo)
    (h : erc20CheckBalance E asset s = (Except.ok mi, s')) :
    (mi.missing_amount : ℤ)
        = max 0 ((asset.required_amount : ℤ) - (mi.current_balance : ℤ))
    ∧ mi.required = AssetSpec.erc20 asset.token_address asset.required_amount := by
  unfold erc20CheckBalance at h
  rcases hcr : E.callRaw 0 asset.token_address
      (CallData.balanceOf asset.account) 0 s with ⟨r, s₂⟩
  rw [hcr] at h
  cases r with
  | error e => simp at h
  | ok out =>
    simp only [Prod.mk.injEq, Except.ok.injEq] at h
    obtain ⟨hmi, _⟩ := h
    subst hmi
    refine ⟨?_, rfl⟩
    simp only [u256satSub]
    omega

/-- C8 witness: required 100 against a reported balance of 30. -/
theorem check_balance_saturating_witness :
    erc20CheckBalance
        (witEngine (Except.ok { isRevert := true, traces := none })
          (Except.ok (some 30)))
        { asset_type := AssetType.erc20, token_address := 2, account := 1,
          required_amount := 100 } ()
      = (Except.ok { account := 1, required := AssetSpec.erc20 2 100,
                     current_balance := 30, missing_amount := 70 }, ())
    ∧ ((70 : Nat) : ℤ) = max 0 (((100 : Nat) : ℤ) - ((30 : Nat) : ℤ)) :=
  ⟨rfl, (check_balance_saturating
      (witEngine (Except.ok { isRevert := true, traces := none })
        (Except.ok (some 30)))
      { asset_type := AssetType.erc20, token_address := 2, account := 1,
        required_amount := 100 } () ()
      { account := 1, required := AssetSpec.erc20 2 100,
        current_balance := 30, missing_amount := 70 } rfl).1⟩

/-- C4: when the first simulated execution of the call does not revert,
the loop terminates on the success path with no shortfall recorded, and
both `check_transaction` and `check_transaction_with_options` (any
auto-fix flag, any iteration bound) return the empty sequence. -/
theorem check_transaction_success_empty {σ : Type} (E : Engine σ)
    (checkers : List (AssetChecker σ)) (call : Call) (s s₁ : σ)
    (result : TxResult)
    (hTx : E.transactRaw call.fromAddr call.toAddr call.data call.value s
        = (Except.ok result, s₁))
    (hRev : result.isRevert = false) :
    (check_transaction E checkers call s).1 = Except.ok []
    ∧ ∀ (autoFix : Bool) (maxIterations : Nat),
        (check_transaction_with_options E checkers call autoFix maxIterations
            s).1 = Except.ok [] := by
  have key : ∀ (autoFix : Bool) (maxIterations : Nat),
      (check_transaction_with_options E checkers call autoFix maxIterations
          s).1 = Except.ok [] := by
    intro autoFix n
    cases n with
    | zero => rfl
    | succ n =>
      unfold check_transaction_with_options loopIter
      rw [hTx]
      simp [hRev, aggregate_missing_assets_nil]
  exact ⟨key true 10, key⟩

/-- C4 witness: a non-reverting engine answer gives the empty report. -/
theorem check_transaction_success_empty_witness :
    (witEngine (Except.ok { isRevert := false, traces := none })
          (Except.ok none)).transactRaw 1 2 (CallData.other 0) 0 ()
        = (Except.ok { isRevert := false, traces := none }, ())
    ∧ (false = false)
    ∧ (check_transaction
        (witEngine (Except.ok { isRevert := false, traces := none })
          (Except.ok none))
        [erc20Checker (witEngine (Except.ok { isRevert := false, traces := none })
          (Except.ok none))]
        { fromAddr := 1, toAddr := 2, value := 0, data := CallData.other 0 }
        ()).1 = Except.ok [] :=
  ⟨rfl, rfl,
    (check_transaction_success_empty
      (witEngine (Except.ok { isRevert := false, traces := none })
        (Except.ok none))
      [erc20Checker (witEngine (Except.ok { isRevert := false, traces := none })
        (Except.ok none))]
      { fromAddr := 1, toAddr := 2, value := 0, data := CallData.other 0 }
      () () { isRevert := false, traces := none } rfl rfl).1⟩

/-- Checkers lifted to the counting state never touch the
`transact_raw` counter. -/
theorem processCheckers_lift_counter {σ : Type} (trace : CallTrace)
    (autoFix : Bool) :
    ∀ (cs : List (AssetChecker σ)) (s : σ) (k : Nat)
      (acc : List MissingAssetInfo) (f : Bool),
      ((processCheckers (cs.map liftChecker) trace autoFix (s, k) acc f).2).2
        = k := by
  intro cs
  induction cs with
  | nil => intro s k acc f; rfl
  | cons c rest ih =>
    intro s k acc f
    simp only [List.map_cons, processCheckers, liftChecker]
    cases hid : c.identify_asset trace with
    | none => exact ih s k acc f
    | some pa =>
      rcases hcb : c.check_balance pa s with ⟨res, s'⟩
      cases res with
      | error e => simpa [hcb] using ih s' k acc f
      | ok missing =>
        by_cases hmiss : missing.missing_amount > 0
        · rcases hdeal : c.deal missing.account missing.required s'
              (AssetContext.from_trace pa trace) with ⟨dres, s''⟩
          cases dres with
          | error e =>
            cases autoFix with
            | false => simpa [hcb, hmiss] using ih s' k (acc ++ [missing]) true
            | true => simp [hcb, hmiss, hdeal]
          | ok u =>
            cases autoFix with
            | false => simpa [hcb, hmiss] using ih s' k (acc ++ [missing]) true
            | true => simpa [hcb, hmiss, hdeal] using ih s'' k (acc ++ [missing]) true
        · simpa [hcb, hmiss] using ih s' k acc f

/-- One `transact_raw` on the counting engine: the underlying engine
answers and the counter advances by one. -/
theorem countEngine_transactRaw {σ : Type} (E : Engine σ)
    (f t : Address) (d : CallData) (v : U256) (s : σ) (k : Nat)
    (res : Except Err TxResult) (s' : σ)
    (h : E.transactRaw f t d v s = (res, s')) :
    (countEngine E).transactRaw f t d v (s, k) = (res, (s', k + 1)) := by
  show ((E.transactRaw f t d v s).1, ((E.transactRaw f t d v s).2, k + 1))
      = (res, (s', k + 1))
  rw [h]

/-- The iteration loop performs at most `fuel` further `transact_raw`
invocations, whatever happens inside the iterations. -/
theorem loopIter_count_le {σ : Type} (E : Engine σ)
    (cs : List (AssetChecker σ)) (call : Call) (autoFix : Bool) :
    ∀ (n : Nat) (s : σ) (k : Nat) (acc : List MissingAssetInfo),
      ((loopIter (countEngine E) (cs.map liftChecker) call autoFix n (s, k)
          acc).2).2 ≤ k + n := by
  intro n
  induction n with
  | zero => intro s k acc; simp [loopIter]
  | succ n ih =>
    intro s k acc
    unfold loopIter
    rcases hE : E.transactRaw call.fromAddr call.toAddr call.data call.value s
      with ⟨res, s'⟩
    rw [countEngine_transactRaw (h := hE)]
    cases res with
    | error e => show k + 1 ≤ k + (n + 1); omega
    | ok result =>
      cases hrev : result.isRevert with
      | false => simp only [hrev, Bool.not_false, if_true]; show k + 1 ≤ k + (n + 1); omega
      | true =>
        simp only [hrev, Bool.not_true, Bool.false_eq_true, if_false]
        cases htr : result.traces with
        | none =>
          simp only [Bool.and_false, Bool.false_eq_true, if_false]
          show k + 1 ≤ k + (n + 1)
          omega
        | some traces =>
          cases hsel : find_last_non_proxy_call traces with
          | none =>
            simp only [hsel, Bool.and_false, Bool.false_eq_true, if_false]
            show k + 1 ≤ k + (n + 1)
            omega
          | some trace =>
            simp only [hsel]
            rcases hpc : processCheckers (cs.map liftChecker) trace autoFix
                (s', k + 1) acc false with ⟨pres, s₂, k₂⟩
            have hk₂ : k₂ = k + 1 := by
              have h := processCheckers_lift_counter trace autoFix cs s'
                (k + 1) acc false
              rw [hpc] at h
              exact h
            subst hk₂
            cases pres with
            | error e => show k + 1 ≤ k + (n + 1); omega
            | ok p =>
              rcases p with ⟨acc', found⟩
              by_cases hf : (autoFix && found) = true
              · simp only [hf, if_true]
                exact (ih s₂ (k + 1) acc').trans (by omega)
              · simp only [hf, if_false]
                show k + 1 ≤ k + (n + 1)
                omega

/-- C5: instrumenting the engine with a `transact_raw` counter,
`check_transaction_with_options` performs at most `max_iterations`
transaction executions, for every call, auto-fix flag, bound, checker
set and initial state. -/
theorem check_transaction_transact_bound {σ : Type} (E : Engine σ)
    (cs : List (AssetChecker σ)) (call : Call) (autoFix : Bool)
    (maxIterations : Nat) (s : σ) (k : Nat) :
    ((check_transaction_with_options (countEngine E) (cs.map liftChecker)
        call autoFix maxIterations (s, k)).2).2 ≤ k + maxIterations :=
  loopIter_count_le E cs call autoFix maxIterations s k []

/-- C10: with auto-fix disabled the loop exits after its first
iteration in every case — reverting or not, shortfalls recorded or not —
so exactly one `transact_raw` execution happens whenever
`max_iterations ≥ 1`. -/
theorem check_transaction_no_fix_single_transact {σ : Type} (E : Engine σ)
    (cs : List (AssetChecker σ)) (call : Call) (n : Nat) (s : σ) (k : Nat) :
    ((check_transaction_with_options (countEngine E) (cs.map liftChecker)
        call false (n + 1) (s, k)).2).2 = k + 1 := by
  unfold check_transaction_with_options loopIter
  rcases hE : E.transactRaw call.fromAddr call.toAddr call.data call.value s
    with ⟨res, s'⟩
  rw [countEngine_transactRaw (h := hE)]
  cases res with
  | error e => rfl
  | ok result =>
    cases hrev : result.isRevert with
    | false => simp only [hrev, Bool.not_false, if_true]
    | true =>
      simp only [hrev, Bool.not_true, Bool.false_eq_true, if_false]
      cases htr : result.traces with
      | none => simp only [Bool.false_and, Bool.false_eq_true, if_false]
      | some traces =>
        cases hsel : find_last_non_proxy_call traces with
        | none =>
          simp only [hsel, Bool.false_and, Bool.false_eq_true, if_false]
        | some trace =>
          simp only [hsel]
          rcases hpc : processCheckers (cs.map liftChecker) trace false
              (s', k + 1) [] false with ⟨pres, s₂, k₂⟩
          have hk₂ : k₂ = k + 1 := by
            have h := processCheckers_lift_counter trace false cs s' (k + 1)
              [] false
            rw [hpc] at h
            exact h
          subst hk₂
          cases pres with
          | error e => rfl
          | ok p =>
            rcases p with ⟨acc', found⟩
            simp only [Bool.false_and, Bool.false_eq_true, if_false]

/-- C3: if the simulated execution reverts but — on the node the trace
selector picks — either no ERC20 transfer shape decodes, or one decodes
whose debited account's balance covers the required amount (an
allowance-only revert), then the run records nothing: the zero shortfall
is filtered out, and `check_transaction` returns the empty sequence. -/
theorem check_transaction_allowance_empty {σ : Type} (E : Engine σ)
    (call : Call) (s s₁ : σ) (result : TxResult)
    (hTx : E.transactRaw call.fromAddr call.toAddr call.data call.value s
        = (Except.ok result, s₁))
    (hRev : result.isRevert = true)
    (hAllow : ∀ trs t, result.traces = some trs →
        find_last_non_proxy_call trs = some t →
        erc20IdentifyAsset t = none ∨
        ∃ pa, erc20IdentifyAsset t = some pa ∧
          ∀ out s₂,
            E.callRaw 0 pa.token_address (CallData.balanceOf pa.account) 0 s₁
              = (Except.ok out, s₂) →
            pa.required_amount ≤ out.getD 0) :
    (check_transaction E [erc20Checker E] call s).1 = Except.ok []
    ∧ ∀ (autoFix : Bool) (maxIterations : Nat),
        (check_transaction_with_options E [erc20Checker E] call autoFix
            maxIterations s).1 = Except.ok [] := by
  have key : ∀ (autoFix : Bool) (maxIterations : Nat),
      (check_transaction_with_options E [erc20Checker E] call autoFix
          maxIterations s).1 = Except.ok [] := by
    intro autoFix n
    cases n with
    | zero => rfl
    | succ n =>
      unfold check_transaction_with_options loopIter
      rw [hTx]
      simp only [hRev, Bool.not_true, Bool.false_eq_true, if_false]
      cases htr : result.traces with
      | none => simp [Bool.and_false, aggregate_missing_assets_nil]
      | some trs =>
        cases hsel : find_last_non_proxy_call trs with
        | none => simp [hsel, Bool.and_false, aggregate_missing_assets_nil]
        | some t =>
          simp only [hsel]
          rcases hAllow trs t htr hsel with hid | ⟨pa, hid, hbal⟩
          · simp only [processCheckers, erc20Checker, hid]
            simp [Bool.and_false, aggregate_missing_assets_nil]
          · simp only [processCheckers, erc20Checker, hid]
            unfold erc20CheckBalance
            rcases hcr : E.callRaw 0 pa.token_address
                (CallData.balanceOf pa.account) 0 s₁ with ⟨r, s₂⟩
            cases r with
            | error e => simp [Bool.and_false, aggregate_missing_assets_nil]
            | ok out =>
              have hle : pa.required_amount ≤ out.getD 0 := hbal out s₂ hcr
              have hzero : u256satSub pa.required_amount (out.getD 0) = 0 :=
                Nat.sub_eq_zero_of_le hle
              simp [hzero, Bool.and_false, aggregate_missing_assets_nil]
  exact ⟨key true 10, key⟩

/-- C3 witness: a `transferFrom` node over a sufficient balance (the
allowance-only revert of the repository's own regression test). -/
theorem check_transaction_allowance_empty_witness :
    (check_transaction
        (witEngine
          (Except.ok { isRevert := true, traces := some [
            { kind := CallKind.call, caller := 3, address := 2,
              data := CallData.transferFromShape 1 4 100, steps := [],
              rest := 0 }] })
          (Except.ok (some 200)))
        [erc20Checker (witEngine
          (Except.ok { isRevert := true, traces := some [
            { kind := CallKind.call, caller := 3, address := 2,
              data := CallData.transferFromShape 1 4 100, steps := [],
              rest := 0 }] })
          (Except.ok (some 200)))]
        { fromAddr := 3, toAddr := 2, value := 0,
          data := CallData.transferFromShape 1 4 100 } ()).1
      = Except.ok [] := by
  refine (check_transaction_allowance_empty _ _ () ()
      { isRevert := true, traces := some [
        { kind := CallKind.call, caller := 3, address := 2,
          data := CallData.transferFromShape 1 4 100, steps := [],
          rest := 0 }] }
      rfl rfl ?_).1
  intro trs t htr hsel
  have htrs : trs =
      [{ kind := CallKind.call, caller := 3, address := 2,
         data := CallData.transferFromShape 1 4 100, steps := [],
         rest := 0 }] := by
    injection htr with h
    exact h.symm
  subst htrs
  have ht : t =
      { kind := CallKind.call, caller := 3, address := 2,
        data := CallData.transferFromShape 1 4 100, steps := [], rest := 0 } := by
    have : find_last_non_proxy_call
        [{ kind := CallKind.call, caller := 3, address := 2,
           data := CallData.transferFromShape 1 4 100, steps := [],
           rest := 0 }]
        = some { kind := CallKind.call, caller := 3, address := 2,
                 data := CallData.transferFromShape 1 4 100, steps := [],
                 rest := 0 } := by decide
    rw [this] at hsel
    injection hsel with h
    exact h.symm
  subst ht
  refine Or.inr
    ⟨{ asset_type := AssetType.erc20, token_address := 2,
       account := 1, required_amount := 100 }, rfl, ?_⟩
  intro out s₂ h
  have hout : out = some 200 := by
    have h' : (Except.ok (some 200) : Except Err (Option U256)) = Except.ok out :=
      congrArg Prod.fst h
    exact (Except.ok.inj h').symm
  subst hout
  decide

/-- C6: once the selected trace node has been identified by the (single)
registered checker, a `check_balance` error is swallowed — the run ends
normally with the empty report, for any auto-fix flag — while a `deal`
error during auto-fix aborts the whole run and surfaces that very error
to the caller. -/
theorem checker_error_semantics {σ : Type} (E : Engine σ)
    (c : AssetChecker σ) (call : Call) (n : Nat) (s s₁ : σ)
    (result : TxResult) (trs : List CallTrace) (t : CallTrace)
    (pa : PotentialMissingAsset)
    (hTx : E.transactRaw call.fromAddr call.toAddr call.data call.value s
        = (Except.ok result, s₁))
    (hRev : result.isRevert = true)
    (hTraces : result.traces = some trs)
    (hSel : find_last_non_proxy_call trs = some t)
    (hId : c.identify_asset t = some pa) :
    (∀ (rest : List (AssetChecker σ)) (autoFix : Bool) (e : Err) (s₂ : σ)
        (acc : List MissingAssetInfo) (f : Bool),
        c.check_balance pa s₁ = (Except.error e, s₂) →
        processCheckers (c :: rest) t autoFix s₁ acc f
          = processCheckers rest t autoFix s₂ acc f)
    ∧ (∀ (autoFix : Bool) (e : Err) (s₂ : σ),
        c.check_balance pa s₁ = (Except.error e, s₂) →
        check_transaction_with_options E [c] call autoFix (n + 1) s
          = (Except.ok [], s₂))
    ∧ (∀ (missing : MissingAssetInfo) (s₂ : σ) (e : Err) (s₃ : σ),
        c.check_balance pa s₁ = (Except.ok missing, s₂) →
        0 < missing.missing_amount →
        c.deal missing.account missing.required s₂
            (AssetContext.from_trace pa t) = (Except.error e, s₃) →
        check_transaction_with_options E [c] call true (n + 1) s
          = (Except.error e, s₃)) := by
  refine ⟨?_, ?_, ?_⟩
  · intro rest autoFix e s₂ acc f hcb
    simp only [processCheckers, hId, hcb]
  · intro autoFix e s₂ hcb
    unfold check_transaction_with_options loopIter
    rw [hTx]
    simp only [hRev, Bool.not_true, Bool.false_eq_true, if_false, hTraces, hSel]
    simp only [processCheckers, hId, hcb]
    simp [Bool.and_false, aggregate_missing_assets]
  · intro missing s₂ e s₃ hcb hmiss hdeal
    unfold check_transaction_with_options loopIter
    rw [hTx]
    simp only [hRev, Bool.not_true, Bool.false_eq_true, if_false, hTraces, hSel]
    simp only [processCheckers, hId, hcb, hmiss, if_true, hdeal]

/-- C6 witness: a failing balance query is swallowed (run ends with the
empty report), while a failing `deal` (here: a trace with no recorded
storage accesses) aborts the run with that error. -/
theorem checker_error_semantics_witness :
    check_transaction_with_options
        (witEngine (Except.ok { isRevert := true, traces := some [
            { kind := CallKind.call, caller := 1, address := 2,
              data := CallData.transfer 3 100, steps := [], rest := 0 }] })
          (Except.error "rpc failure"))
        [erc20Checker (witEngine (Except.ok { isRevert := true, traces := some [
            { kind := CallKind.call, caller := 1, address := 2,
              data := CallData.transfer 3 100, steps := [], rest := 0 }] })
          (Except.error "rpc failure"))]
        { fromAddr := 1, toAddr := 2, value := 0,
          data := CallData.transfer 3 100 } true 1 ()
      = (Except.ok [], ())
    ∧ check_transaction_with_options
        (witEngine (Except.ok { isRevert := true, traces := some [
            { kind := CallKind.call, caller := 1, address := 2,
              data := CallData.transfer 3 100, steps := [], rest := 0 }] })
          (Except.ok (some 0)))
        [erc20Checker (witEngine (Except.ok { isRevert := true, traces := some [
            { kind := CallKind.call, caller := 1, address := 2,
              data := CallData.transfer 3 100, steps := [], rest := 0 }] })
          (Except.ok (some 0)))]
        { fromAddr := 1, toAddr := 2, value := 0,
          data := CallData.transfer 3 100 } true 1 ()
      = (Except.error
          "No storage accesses found in trace - cannot determine balance slot",
         ()) :=
  ⟨(checker_error_semantics
      (witEngine (Except.ok { isRevert := true, traces := some [
          { kind := CallKind.call, caller := 1, address := 2,
            data := CallData.transfer 3 100, steps := [], rest := 0 }] })
        (Except.error "rpc failure"))
      (erc20Checker (witEngine (Except.ok { isRevert := true, traces := some [
          { kind := CallKind.call, caller := 1, address := 2,
            data := CallData.transfer 3 100, steps := [], rest := 0 }] })
        (Except.error "rpc failure")))
      { fromAddr := 1, toAddr := 2, value := 0,
        data := CallData.transfer 3 100 } 0 () ()
      { isRevert := true, traces := some [
        { kind := CallKind.call, caller := 1, address := 2,
          data := CallData.transfer 3 100, steps := [], rest := 0 }] }
      [{ kind := CallKind.call, caller := 1, address := 2,
         data := CallData.transfer 3 100, steps := [], rest := 0 }]
      { kind := CallKind.call, caller := 1, address := 2,
        data := CallData.transfer 3 100, steps := [], rest := 0 }
      { asset_type := AssetType.erc20, token_address := 2, account := 1,
        required_amount := 100 }
      rfl rfl rfl (by decide) rfl).2.1 true "rpc failure" () rfl,
   (checker_error_semantics
      (witEngine (Except.ok { isRevert := true, traces := some [
          { kind := CallKind.call, caller := 1, address := 2,
            data := CallData.transfer 3 100, steps := [], rest := 0 }] })
        (Except.ok (some 0)))
      (erc20Checker (witEngine (Except.ok { isRevert := true, traces := some [
          { kind := CallKind.call, caller := 1, address := 2,
            data := CallData.transfer 3 100, steps := [], rest := 0 }] })
        (Except.ok (some 0))))
      { fromAddr := 1, toAddr := 2, value := 0,
        data := CallData.transfer 3 100 } 0 () ()
      { isRevert := true, traces := some [
        { kind := CallKind.call, caller := 1, address := 2,
          data := CallData.transfer 3 100, steps := [], rest := 0 }] }
      [{ kind := CallKind.call, caller := 1, address := 2,
         data := CallData.transfer 3 100, steps := [], rest := 0 }]
      { kind := CallKind.call, caller := 1, address := 2,
        data := CallData.transfer 3 100, steps := [], rest := 0 }
      { asset_type := AssetType.erc20, token_address := 2, account := 1,
        required_amount := 100 }
      rfl rfl rfl (by decide) rfl).2.2
     { account := 1, required := AssetSpec.erc20 2 100,
       current_balance := 0, missing_amount := 100 } ()
     "No storage accesses found in trace - cannot determine balance slot" ()
     rfl (by decide) rfl⟩

/-- A successful `HashMap::get` exhibits a member entry. -/
theorem hmGet_some_mem {m : List (U256 × U256)} {k v : U256}
    (h : hmGet m k = some v) : (k, v) ∈ m := by
  unfold hmGet at h
  cases hf : m.find? (fun p => p.1 == k) with
  | none => rw [hf] at h; exact Option.noConfusion h
  | some q =>
    rw [hf] at h
    have hq : q ∈ m := List.mem_of_find?_eq_some hf
    have hk := List.find?_some hf
    have hk' : q.1 = k := by simpa using hk
    have hv : q.2 = v := by simpa using h
    have : (k, v) = q := by
      cases q
      simp only at hk' hv
      rw [hk', hv]
    rw [this]
    exact hq

/-- Rust `HashMap` equality on a well-formed (distinct-keyed) left map is
a permutation of the entry lists. -/
theorem hmBeq_perm {m1 m2 : List (U256 × U256)} (h : hmBeq m1 m2 = true)
    (hnd : (m1.map Prod.fst).Nodup) : m1.Perm m2 := by
  unfold hmBeq at h
  rw [Bool.and_eq_true] at h
  obtain ⟨hlen, hall⟩ := h
  have hlen' : m1.length = m2.length := by simpa using hlen
  have hsub : m1 ⊆ m2 := by
    intro p hp
    have hget : hmGet m2 p.1 = some p.2 := by
      have := List.all_eq_true.mp hall p hp
      simpa using this
    have := hmGet_some_mem hget
    simpa using this
  have hnd1 : m1.Nodup := hnd.of_map
  exact (List.subperm_of_subset hnd1 hsub).perm_of_length_le (le_of_eq hlen'.symm)

/-- Sorting by key is invariant under permutation of a distinct-keyed
entry list: both sides sort to the unique strictly-key-sorted list. -/
theorem sortEntries_perm_eq {m1 m2 : List (U256 × U256)} (h : m1.Perm m2)
    (hnd : (m1.map Prod.fst).Nodup) : sortEntries m1 = sortEntries m2 := by
  have htrans : ∀ (a b c : U256 × U256),
      decide (a.1 ≤ b.1) = true → decide (b.1 ≤ c.1) = true →
      decide (a.1 ≤ c.1) = true := by
    intro a b c h1 h2
    simp only [decide_eq_true_eq] at h1 h2 ⊢
    exact Nat.le_trans h1 h2
  have htotal : ∀ (a b : U256 × U256),
      (decide (a.1 ≤ b.1) || decide (b.1 ≤ a.1)) = true := by
    intro a b
    simp only [Bool.or_eq_true, decide_eq_true_eq]
    exact Nat.le_total a.1 b.1
  have p1 : (sortEntries m1).Perm m1 := List.mergeSort_perm m1 _
  have p2 : (sortEntries m2).Perm m2 := List.mergeSort_perm m2 _
  have pp : (sortEntries m1).Perm (sortEntries m2) :=
    (p1.trans h).trans p2.symm
  have hnd2 : (m2.map Prod.fst).Nodup := ((h.map Prod.fst).nodup_iff).mp hnd
  have key1 : ((sortEntries m1).map Prod.fst).Nodup :=
    ((p1.map Prod.fst).nodup_iff).mpr hnd
  have key2 : ((sortEntries m2).map Prod.fst).Nodup :=
    ((p2.map Prod.fst).nodup_iff).mpr hnd2
  have sorted1 : (sortEntries m1).Pairwise
      (fun a b => decide (a.1 ≤ b.1) = true) :=
    List.sorted_mergeSort htrans htotal m1
  have sorted2 : (sortEntries m2).Pairwise
      (fun a b => decide (a.1 ≤ b.1) = true) :=
    List.sorted_mergeSort htrans htotal m2
  have ne1 : (sortEntries m1).Pairwise (fun a b => a.1 ≠ b.1) :=
    List.pairwise_map.mp key1
  have ne2 : (sortEntries m2).Pairwise (fun a b => a.1 ≠ b.1) :=
    List.pairwise_map.mp key2
  have strict1 : (sortEntries m1).Pairwise (fun a b => a.1 < b.1) :=
    (sorted1.and ne1).imp (fun hab => by
      obtain ⟨h1, h2⟩ := hab
      simp only [decide_eq_true_eq] at h1
      exact Nat.lt_of_le_of_ne h1 h2)
  have strict2 : (sortEntries m2).Pairwise (fun a b => a.1 < b.1) :=
    (sorted2.and ne2).imp (fun hab => by
      obtain ⟨h1, h2⟩ := hab
      simp only [decide_eq_true_eq] at h1
      exact Nat.lt_of_le_of_ne h1 h2)
  haveI : IsAntisymm (U256 × U256) (fun a b => a.1 < b.1) :=
    ⟨fun a b h1 h2 => absurd h2 (Nat.lt_asymm h1)⟩
  exact List.eq_of_perm_of_sorted pp strict1 strict2

/-- C9: on well-formed values (distinct-keyed maps, as every real
`HashMap` is), `AssetSpec` values equal under the derived structural
equality feed identical streams to the hasher — for `ERC1155` because
entries are hashed in sorted key order, independent of the map's internal
iteration order. -/
theorem assetSpec_hash_consistent (a b : AssetSpec) (ha : wfSpec a)
    (_hb : wfSpec b) (h : specBeq a b = true) : hashStream a = hashStream b := by
  cases a with
  | native x =>
    cases b with
    | native y =>
      have : x = y := by simpa [specBeq] using h
      rw [this]
    | erc20 t2 a2 => simp [specBeq] at h
    | erc721 t2 ids2 => simp [specBeq] at h
    | erc1155 t2 m2 => simp [specBeq] at h
  | erc20 t1 a1 =>
    cases b with
    | native y => simp [specBeq] at h
    | erc20 t2 a2 =>
      have h' : t1 = t2 ∧ a1 = a2 := by simpa [specBeq] using h
      rw [h'.1, h'.2]
    | erc721 t2 ids2 => simp [specBeq] at h
    | erc1155 t2 m2 => simp [specBeq] at h
  | erc721 t1 ids1 =>
    cases b with
    | native y => simp [specBeq] at h
    | erc20 t2 a2 => simp [specBeq] at h
    | erc721 t2 ids2 =>
      have h' : t1 = t2 ∧ ids1 = ids2 := by simpa [specBeq] using h
      rw [h'.1, h'.2]
    | erc1155 t2 m2 => simp [specBeq] at h
  | erc1155 t1 m1 =>
    cases b with
    | native y => simp [specBeq] at h
    | erc20 t2 a2 => simp [specBeq] at h
    | erc721 t2 ids2 => simp [specBeq] at h
    | erc1155 t2 m2 =>
      have hnd : (m1.map Prod.fst).Nodup := ha
      have h' : t1 = t2 ∧ hmBeq m1 m2 = true := by
        have := h
        unfold specBeq at this
        rw [Bool.and_eq_true] at this
        exact ⟨by simpa using this.1, this.2⟩
      have hperm : m1.Perm m2 := hmBeq_perm h'.2 hnd
      have hsort : sortEntries m1 = sortEntries m2 :=
        sortEntries_perm_eq hperm hnd
      simp only [hashStream, h'.1, hsort]

/-- C9 witness: two `ERC1155` specs carrying the same mapping in
different iteration orders. -/
theorem assetSpec_hash_consistent_witness :
    wfSpec (AssetSpec.erc1155 5 [(1, 10), (2, 20)])
    ∧ wfSpec (AssetSpec.erc1155 5 [(2, 20), (1, 10)])
    ∧ specBeq (AssetSpec.erc1155 5 [(1, 10), (2, 20)])
        (AssetSpec.erc1155 5 [(2, 20), (1, 10)]) = true
    ∧ hashStream (AssetSpec.erc1155 5 [(1, 10), (2, 20)])
        = hashStream (AssetSpec.erc1155 5 [(2, 20), (1, 10)]) :=
  ⟨by unfold wfSpec; decide, by unfold wfSpec; decide, by decide,
   assetSpec_hash_consistent _ _ (by unfold wfSpec; decide)
     (by unfold wfSpec; decide) (by decide)⟩

end AssetSim
